import Mathlib

/-
Verification of the BookShelf-AI frontend core logic.

The definitions below are a shallow embedding of the JavaScript code in
frontend/src/components/Search.js (intent classification, parseMcpAnswer
response normalization, the delete-flow matching, and the search-answer
fallback chain) and frontend/src/components/AdminPanel.js
(startUploadPolling, the upload status poller).

JavaScript data reaching these functions is parsed JSON (axios response
bodies), modelled by the inductive type JSVal below, which also holds
the value `undefined` produced by a failed property lookup.  Numbers are
modelled as integers (no claim below depends on float behaviour), and
character operations (toLowerCase, trim, regex word boundaries) are
modelled over ASCII, which covers every string the code manipulates.
-/

/-- Model of a JavaScript value as it appears in this code base:
parsed JSON plus the `undefined` produced by property lookups. -/
inductive JSVal where
  | undefined : JSVal
  | null : JSVal
  | bool : Bool → JSVal
  | num : Int → JSVal
  | str : String → JSVal
  | arr : List JSVal → JSVal
  | obj : List (String × JSVal) → JSVal

/-- JavaScript truthiness: undefined, null, false, 0 and "" are falsy;
arrays and objects are always truthy. -/
def truthy : JSVal → Bool
  | .undefined => false
  | .null => false
  | .bool b => b
  | .num n => n != 0
  | .str s => s != ""
  | .arr _ => true
  | .obj _ => true

/-- Test for `typeof v === "string"`. -/
def isString : JSVal → Bool
  | .str _ => true
  | _ => false

/-- Test for `Array.isArray(v)`. -/
def isArr : JSVal → Bool
  | .arr _ => true
  | _ => false

/-- Underlying list of an array value (only ever used under an isArr guard). -/
def asArr : JSVal → List JSVal
  | .arr xs => xs
  | _ => []

/-- Property access `v.k`: a missing field, or access on a non-object,
yields undefined.  Every access in the embedded code is either guarded by
a truthiness check or uses optional chaining, so the null/undefined case
never throws in the original code. -/
def jsGet (v : JSVal) (k : String) : JSVal :=
  match v with
  | .obj fs =>
    match fs.find? (fun p => p.1 == k) with
    | some p => p.2
    | none => .undefined
  | _ => .undefined

/-- JavaScript short-circuit disjunction `a || b` on values. -/
def jsOr (a b : JSVal) : JSVal := if truthy a then a else b

/-- JavaScript short-circuit conjunction `a && b` on values. -/
def jsAnd (a b : JSVal) : JSVal := if truthy a then b else a

/-- String escaping inside JSON.stringify output (quote and backslash;
control-character escapes do not occur in the strings handled here). -/
def jsonEscape (s : String) : String :=
  ⟨s.data.foldr (fun c acc => (if c = '"' || c = '\\' then ['\\', c] else [c]) ++ acc) []⟩

/-- Quoted JSON string literal. -/
def jsonQuote (s : String) : String := "\"" ++ jsonEscape s ++ "\""

mutual

/-- Model of JSON.stringify.  A bare `undefined` only ever reaches
JSON.stringify as an array element in this code, where JSON.stringify
serializes it as null. -/
def stringify : JSVal → String
  | .undefined => "null"
  | .null => "null"
  | .bool b => if b then "true" else "false"
  | .num n => toString n
  | .str s => jsonQuote s
  | .arr xs => "[" ++ stringifyElems xs ++ "]"
  | .obj fs => "\x7b" ++ stringifyFields fs ++ "\x7d"

/-- Comma-separated serialization of array elements. -/
def stringifyElems : List JSVal → String
  | [] => ""
  | [x] => stringify x
  | x :: y :: xs => stringify x ++ "," ++ stringifyElems (y :: xs)

/-- Comma-separated serialization of object fields. -/
def stringifyFields : List (String × JSVal) → String
  | [] => ""
  | [(k, v)] => jsonQuote k ++ ":" ++ stringify v
  | (k, v) :: f :: fs => jsonQuote k ++ ":" ++ stringify v ++ "," ++ stringifyFields (f :: fs)

end

mutual

/-- Model of JavaScript String(v) / template-literal interpolation. -/
def jsToString : JSVal → String
  | .undefined => "undefined"
  | .null => "null"
  | .bool b => if b then "true" else "false"
  | .num n => toString n
  | .str s => s
  | .arr xs => jsToStringElems xs
  | .obj _ => "[object Object]"

/-- Array.prototype.toString: elements joined by commas, with null and
undefined elements rendered as empty. -/
def jsToStringElems : List JSVal → String
  | [] => ""
  | [.null] => ""
  | [.undefined] => ""
  | [x] => jsToString x
  | .null :: y :: xs => "," ++ jsToStringElems (y :: xs)
  | .undefined :: y :: xs => "," ++ jsToStringElems (y :: xs)
  | x :: y :: xs => jsToString x ++ "," ++ jsToStringElems (y :: xs)

end

/-- Model of `s.slice(0, n)` on strings. -/
def jsSlice (s : String) (n : Nat) : String := ⟨s.data.take n⟩

/-- Whitespace recognized by String.prototype.trim (ASCII subset). -/
def jsWhitespace (c : Char) : Bool :=
  c = ' ' || c = '\t' || c = '\n' || c = '\r' || c = '\x0b' || c = '\x0c'

/-- Model of `s.trim()`: strip leading and trailing whitespace. -/
def jsTrim (s : String) : String :=
  ⟨List.rdropWhile jsWhitespace (List.dropWhile jsWhitespace s.data)⟩

/-- Model of `s.toLowerCase()` (ASCII). -/
def jsToLower (s : String) : String := ⟨s.data.map Char.toLower⟩

/-- Occurrence check behind `haystack.includes(needle)`. -/
def infixCheck (needle : List Char) : List Char → Bool
  | [] => needle.isPrefixOf ([] : List Char)
  | c :: rest => needle.isPrefixOf (c :: rest) || infixCheck needle rest

/-- Model of `s.includes(sub)`. -/
def jsIncludes (s sub : String) : Bool := infixCheck sub.data s.data

/-- Word character of the regex class backslash-w: ASCII letters, digits,
underscore. -/
def isWordChar (c : Char) : Bool := c.isAlphanum || c = '_'

/-- Left word-boundary test: start of string or a non-word character. -/
def boundaryLeft : Option Char → Bool
  | none => true
  | some c => !(isWordChar c)

/-- Right word-boundary test: end of string or a non-word character. -/
def boundaryRight : List Char → Bool
  | [] => true
  | c :: _ => !(isWordChar c)

/-- Search for a whole-word occurrence of tok, carrying the previously
scanned character for the left-boundary test. -/
def wholeWordSearch (tok : List Char) : Option Char → List Char → Bool
  | prev, [] => boundaryLeft prev && tok.isPrefixOf ([] : List Char)
  | prev, c :: rest =>
    (boundaryLeft prev && tok.isPrefixOf (c :: rest) && boundaryRight ((c :: rest).drop tok.length))
    || wholeWordSearch tok (some c) rest

/-- Model of testing the regex backslash-b tok backslash-b against s. -/
def containsWholeWord (s tok : String) : Bool := wholeWordSearch tok.data none s.data

/-
Embedding of frontend/src/components/Search.js.
-/

/-- The fixed list phrases from isListIntent in Search.js. -/
def listPhrases : List String :=
  ["list all", "list books", "list the books", "show all books",
   "all books", "what books", "give me all books"]

/-- Embedding of isListIntent: false on the empty string, otherwise any
of the list phrases occurring as a substring of the trimmed, lowercased
input. -/
def isListIntent (q : String) : Bool :=
  if q == "" then false
  else listPhrases.any (fun p => jsIncludes (jsToLower (jsTrim q)) p)

/-- Delete verb tokens of the regex in handleSearch. -/
def deleteVerbs : List String := ["delete", "remove", "erase"]

/-- Delete object tokens of the regex in handleSearch. -/
def deleteObjects : List String := ["book", "books", "entry", "record"]

/-- Whole-word occurrence of any of the alternation tokens. -/
def hasAnyWholeWord (s : String) (toks : List String) : Bool :=
  toks.any (fun t => containsWholeWord s t)

/-- Embedding of the isDelete test in handleSearch: a delete verb and an
object token each occurring as a whole word in the lowered query. -/
def isDeleteIntent (lower : String) : Bool :=
  hasAnyWholeWord lower deleteVerbs && hasAnyWholeWord lower deleteObjects

/-- Routing outcome of handleSearch for a raw query string. -/
inductive Intent where
  | empty : Intent
  | delete : Intent
  | list : Intent
  | rag : Intent
deriving DecidableEq

/-- Embedding of the routing logic of handleSearch: trim; reject blank
input; the delete branch is tested first, then the list branch, then the
default RAG search. -/
def classify (query : String) : Intent :=
  let cleaned := jsTrim query
  if cleaned == "" then .empty
  else if isDeleteIntent (jsToLower cleaned) then .delete
  else if isListIntent cleaned then .list
  else .rag

/-- Result shape of parseMcpAnswer. -/
structure MCPAnswer where
  text : JSVal
  snippets : List JSVal
  sources : List JSVal

/-- Embedding of the answer-text extraction chain of parseMcpAnswer:
(typeof answer === "string" && answer) || (typeof text === "string" &&
text) || (data && typeof data === "string" && data). -/
def mcpTextRaw (d : JSVal) : JSVal :=
  jsOr
    (jsOr (jsAnd (.bool (isString (jsGet d "answer"))) (jsGet d "answer"))
          (jsAnd (.bool (isString (jsGet d "text"))) (jsGet d "text")))
    (jsAnd (jsAnd (jsGet d "data") (.bool (isString (jsGet d "data")))) (jsGet d "data"))

/-- Snippet derived from one element of the results array: the first
truthy of snippet/text/content if the element and that value are truthy,
else the serialized element. -/
def snippetOfResult (r : JSVal) : JSVal :=
  let v := jsOr (jsOr (jsGet r "snippet") (jsGet r "text")) (jsGet r "content")
  if truthy (jsAnd r v) then v else .str (stringify r)

/-- Embedding of the snippets extraction of parseMcpAnswer. -/
def mcpSnippets (d : JSVal) : List JSVal :=
  if isArr (jsGet d "context") then
    ((asArr (jsGet d "context")).take 6).map
      (fun c => if isString c then c else .str (stringify c))
  else if isArr (jsGet d "results") then
    ((asArr (jsGet d "results")).take 6).map snippetOfResult
  else if truthy (jsGet d "context") && isString (jsGet d "context") then
    [jsGet d "context"]
  else []

/-- Source label derived from one element of the results array. -/
def sourceOfResult (r : JSVal) : JSVal :=
  if truthy r = false then .str ""
  else if truthy (jsGet r "title") then
    .str (jsToString (jsGet r "title")
      ++ (if truthy (jsGet r "id") then " (" ++ jsToString (jsGet r "id") ++ ")" else ""))
  else if truthy (jsAnd (jsGet r "metadata") (jsGet (jsGet r "metadata") "title")) then
    jsGet (jsGet r "metadata") "title"
  else
    jsOr (jsOr (jsGet r "id") (jsGet r "source")) (.str (jsSlice (stringify r) 80))

/-- Embedding of the sources extraction of parseMcpAnswer: a sources
array is mapped in full; otherwise the first 6 results entries are
labelled; otherwise empty. -/
def mcpSources (d : JSVal) : List JSVal :=
  if isArr (jsGet d "sources") then
    (asArr (jsGet d "sources")).map (fun s => if isString s then s else .str (stringify s))
  else if isArr (jsGet d "results") then
    ((asArr (jsGet d "results")).take 6).map sourceOfResult
  else []

/-- Embedding of parseMcpAnswer from Search.js. -/
def parseMcpAnswer (resData : JSVal) : MCPAnswer :=
  if truthy resData = false then ⟨.str "", [], []⟩
  else ⟨jsOr (mcpTextRaw resData) (.str ""), mcpSnippets resData, mcpSources resData⟩

/-- Embedding of the final answer computation of the RAG search branch of
handleSearch: parseMcpAnswer on (res.data || an empty object), then the
fallback chain payload.answer, response.answer, truncated raw JSON. -/
def searchAnswer (d : JSVal) : JSVal :=
  let t := (parseMcpAnswer (jsOr d (.obj []))).text
  if truthy t then t
  else if truthy (jsGet (jsGet d "payload") "answer") then jsGet (jsGet d "payload") "answer"
  else if truthy (jsGet (jsGet d "response") "answer") then jsGet (jsGet d "response") "answer"
  else .str (jsSlice (stringify d) 400)

/-
Embedding of the delete branch of handleSearch.  The book records served
by the MCP list endpoint carry string fields; a missing field is none and
surfaces as the empty string through norm, exactly as (s || "") does.
-/

/-- Book record as used by the delete-flow matching. -/
structure MBook where
  title : Option String
  author : Option String
  upload_id : Option String
  book_id : Option String
deriving DecidableEq, Repr

/-- Embedding of norm in handleSearch: (s || "").trim().toLowerCase(). -/
def normField (s : Option String) : String := jsToLower (jsTrim (s.getD ""))

/-- First matching pass of the delete flow: exact normalized title or
exact normalized upload_id, tested together in a single traversal. -/
def exactMatch (cand : String) (b : MBook) : Bool :=
  normField b.title == cand || normField b.upload_id == cand

/-- Second matching pass: substring title match in either direction. -/
def titleSubMatch (cand : String) (b : MBook) : Bool :=
  jsIncludes (normField b.title) cand || jsIncludes cand (normField b.title)

/-- Third matching pass: substring author match in either direction. -/
def authorSubMatch (cand : String) (b : MBook) : Bool :=
  jsIncludes (normField b.author) cand || jsIncludes cand (normField b.author)

/-- Embedding of the match-finding sequence of the delete branch. -/
def findBookMatch (mbooks : List MBook) (titleCandidate : String) : Option MBook :=
  let cand := normField (some titleCandidate)
  match mbooks.find? (exactMatch cand) with
  | some m => some m
  | none =>
    match mbooks.find? (titleSubMatch cand) with
    | some m => some m
    | none => mbooks.find? (authorSubMatch cand)

/-- Observable outcome of the delete branch after matching. -/
inductive DeleteOutcome where
  | notFound : String → DeleteOutcome
  | cancelled : DeleteOutcome
  | requested : Option String → DeleteOutcome
deriving DecidableEq, Repr

/-- Embedding of the delete branch after the candidate title has been
extracted: no match reports not-found and returns before any delete
request; a match asks for confirmation and only then issues the delete
request with the matched book id. -/
def deleteFlow (mbooks : List MBook) (titleCandidate : String) (confirm : Bool) : DeleteOutcome :=
  match findBookMatch mbooks titleCandidate with
  | none => .notFound titleCandidate
  | some m => if confirm then .requested m.book_id else .cancelled

/-- Delete request issued by the delete branch, if any. -/
def deleteRequestOf : DeleteOutcome → Option (Option String)
  | .requested b => some b
  | _ => none

/-- Modelled from the spec (claim C4 wording): the same matching passes,
but with exact-title tried over the whole list before exact upload_id, as
the claim states, instead of the combined single pass the code performs. -/
def findBookMatchClaimOrder (mbooks : List MBook) (titleCandidate : String) : Option MBook :=
  let cand := normField (some titleCandidate)
  match mbooks.find? (fun b => normField b.title == cand) with
  | some m => some m
  | none =>
    match mbooks.find? (fun b => normField b.upload_id == cand) with
    | some m => some m
    | none =>
      match mbooks.find? (titleSubMatch cand) with
      | some m => some m
      | none => mbooks.find? (authorSubMatch cand)

/-
Embedding of startUploadPolling from frontend/src/components/AdminPanel.js.

A tick of the interval callback is modelled by pollTick.  The observation
of a tick is none when the tick obtained no usable status (both status
endpoints failed, or the response had no truthy status field, so the
`if (s && s.status)` guard was false), and some (status, message) when
the guard was true, message being s.error || s.message || "".  Once
clearInterval has run, no further callbacks fire, which is modelled by
the active flag gating pollTick.
-/

/-- Upload status state surfaced to the UI, plus the attempt counter and
whether the interval is still alive. -/
structure PollState where
  tries : Nat
  status : String
  message : String
  active : Bool
deriving DecidableEq, Repr

/-- Embedding of the status normalization lines: "done" is rewritten to
"published", and the second line assigns "indexed" to itself, exactly as
in the source. -/
def normalizeStatus (s : String) : String :=
  let s1 := if s == "done" then "published" else s
  if s1 == "indexed" then "indexed" else s1

/-- Terminal status values on which the code stops polling. -/
def terminalStatuses : List String := ["published", "failed", "error"]

/-- Embedding of the `if (s && s.status)` branch of the interval
callback: surface the normalized status and the message, and clear the
interval when the normalized status is terminal. -/
def statusStep (obs : Option (String × String)) (st : PollState) : PollState :=
  match obs with
  | none => st
  | some (s, m) =>
    let sv := normalizeStatus s
    let st1 := { st with status := sv, message := m }
    if sv ∈ terminalStatuses then { st1 with active := false } else st1

/-- Embedding of the `if (tries > 40)` branch, which runs after the
status branch on every tick: past the ceiling, overwrite the status with
"timeout" and clear the interval. -/
def timeoutStep (st : PollState) : PollState :=
  if st.tries > 40 then
    { st with active := false, status := "timeout", message := "Indexing timed out" }
  else st

/-- One firing of the interval callback: nothing happens when the
interval has been cleared; otherwise the attempt counter is incremented,
then the status branch runs, then the timeout branch. -/
def pollTick (obs : Option (String × String)) (st : PollState) : PollState :=
  if st.active then timeoutStep (statusStep obs { st with tries := st.tries + 1 })
  else st

/-- State set by startUploadPolling before the first tick. -/
def initPollState : PollState :=
  { tries := 0, status := "indexing", message := "Indexing started", active := true }

/-- State after the first n firings of the interval callback, where obs k
is the observation of the (k+1)-st tick. -/
def runPoll (obs : Nat → Option (String × String)) : Nat → PollState
  | 0 => initPollState
  | n + 1 => pollTick (obs n) (runPoll obs n)

/-
Helper lemmas.
-/

/-- The occurrence check agrees with list infixes. -/
lemma infixCheck_iff (n h : List Char) : infixCheck n h = true ↔ n <:+: h := by
  induction h with
  | nil => simp [infixCheck, List.isPrefixOf_iff_prefix]
  | cons c rest ih =>
    simp [infixCheck, List.isPrefixOf_iff_prefix, ih, List.infix_cons_iff]

/-- Substring containment is transitive through an intermediate string:
if sub occurs in mid, then jsIncludes s mid forces jsIncludes s sub. -/
lemma jsIncludes_trans (s mid sub : String) (hsub : sub.data <:+: mid.data)
    (h : jsIncludes s mid = true) : jsIncludes s sub = true := by
  rw [jsIncludes, infixCheck_iff] at h ⊢
  exact hsub.trans h

/-- Any prefix of a list with no leading match of p is itself stable
under dropWhile p. -/
lemma dropWhile_eq_self_of_prefix (p : Char → Bool) (l t : List Char)
    (hl : List.dropWhile p l = l) (ht : t <+: l) : List.dropWhile p t = t := by
  rw [List.dropWhile_eq_self_iff] at hl ⊢
  intro h0
  obtain ⟨u, hu⟩ := ht
  subst hu
  have h0l : 0 < (t ++ u).length := by
    rw [List.length_append]
    omega
  have h2 := hl h0l
  simp only [List.get_eq_getElem] at h2 ⊢
  rwa [List.getElem_append_left h0] at h2

/-- The trim of JS is idempotent. -/
lemma jsTrim_idem (s : String) : jsTrim (jsTrim s) = jsTrim s := by
  apply congrArg String.mk
  show List.rdropWhile jsWhitespace (List.dropWhile jsWhitespace
      (List.rdropWhile jsWhitespace (List.dropWhile jsWhitespace s.data)))
    = List.rdropWhile jsWhitespace (List.dropWhile jsWhitespace s.data)
  have h1 : List.dropWhile jsWhitespace
      (List.rdropWhile jsWhitespace (List.dropWhile jsWhitespace s.data))
      = List.rdropWhile jsWhitespace (List.dropWhile jsWhitespace s.data) :=
    dropWhile_eq_self_of_prefix jsWhitespace _ _
      (List.dropWhile_idempotent _ _) (List.rdropWhile_prefix _ _)
  rw [h1, List.rdropWhile_idempotent]

/-- Truthiness of a wrapped boolean. -/
@[simp] lemma truthy_bool (b : Bool) : truthy (.bool b) = b := rfl

/-- Truthiness of a string value. -/
@[simp] lemma truthy_str (s : String) : truthy (.str s) = (s != "") := rfl

/-- A truthy guarded string clause yields its payload, which is a string. -/
lemma jsAnd_boolCheck_truthy (v : JSVal)
    (h : truthy (jsAnd (JSVal.bool (isString v)) v) = true) :
    jsAnd (JSVal.bool (isString v)) v = v ∧ isString v = true := by
  cases hv : isString v <;> simp [jsAnd, hv] at h ⊢

/-- A truthy data clause (data && typeof data === "string" && data)
yields the data value, which is a string. -/
lemma jsAnd_dataClause_truthy (v : JSVal)
    (h : truthy (jsAnd (jsAnd v (JSVal.bool (isString v))) v) = true) :
    jsAnd (jsAnd v (JSVal.bool (isString v))) v = v ∧ isString v = true := by
  cases ht : truthy v <;> cases hv : isString v <;>
    simp [jsAnd, ht, hv] at h ⊢

/-- When truthy, the extracted raw text of parseMcpAnswer is a string. -/
lemma mcpTextRaw_isString (d : JSVal) (h : truthy (mcpTextRaw d) = true) :
    isString (mcpTextRaw d) = true := by
  have hor : ∀ a b : JSVal, jsOr a b = a ∨ jsOr a b = b := by
    intro a b
    unfold jsOr
    split <;> simp
  unfold mcpTextRaw at h ⊢
  rcases hor
      (jsOr (jsAnd (JSVal.bool (isString (jsGet d "answer"))) (jsGet d "answer"))
            (jsAnd (JSVal.bool (isString (jsGet d "text"))) (jsGet d "text")))
      (jsAnd (jsAnd (jsGet d "data") (JSVal.bool (isString (jsGet d "data")))) (jsGet d "data"))
    with h1 | h1 <;> rw [h1] at h ⊢
  · rcases hor (jsAnd (JSVal.bool (isString (jsGet d "answer"))) (jsGet d "answer"))
        (jsAnd (JSVal.bool (isString (jsGet d "text"))) (jsGet d "text")) with h2 | h2 <;>
      rw [h2] at h ⊢
    · obtain ⟨he, hs⟩ := jsAnd_boolCheck_truthy _ h
      rw [he, hs]
    · obtain ⟨he, hs⟩ := jsAnd_boolCheck_truthy _ h
      rw [he, hs]
  · obtain ⟨he, hs⟩ := jsAnd_dataClause_truthy _ h
    rw [he, hs]

/-- The text field of parseMcpAnswer is always a string value. -/
lemma mcpText_isString (d : JSVal) : isString (parseMcpAnswer d).text = true := by
  unfold parseMcpAnswer
  by_cases hd : truthy d = false
  · simp [hd, isString]
  · simp only [hd, if_false]
    show isString (jsOr (mcpTextRaw d) (.str "")) = true
    unfold jsOr
    by_cases ht : truthy (mcpTextRaw d) = true
    · rw [if_pos ht]
      exact mcpTextRaw_isString d ht
    · rw [if_neg ht]
      rfl

/-- A cleared interval fires no further callbacks. -/
lemma pollTick_inactive (obs : Option (String × String)) (st : PollState)
    (h : st.active = false) : pollTick obs st = st := by
  simp [pollTick, h]

/-- Once polling has stopped, the state never changes again. -/
lemma runPoll_stable (obs : Nat → Option (String × String)) (n : Nat)
    (h : (runPoll obs n).active = false) :
    ∀ k, runPoll obs (n + k) = runPoll obs n := by
  intro k
  induction k with
  | zero => rfl
  | succ j ih =>
    have : runPoll obs (n + (j + 1)) = pollTick (obs (n + j)) (runPoll obs (n + j)) := rfl
    rw [this, ih, pollTick_inactive _ _ h]

/-- As long as every observed status is non-terminal and the ceiling has
not been exceeded, the poller stays active and counts one attempt per
tick. -/
lemma runPoll_active_inv (obs : Nat → Option (String × String)) :
    ∀ n, n ≤ 40 →
    (∀ k, k < n → ∀ s m, obs k = some (s, m) → normalizeStatus s ∉ terminalStatuses) →
    (runPoll obs n).tries = n ∧ (runPoll obs n).active = true := by
  intro n
  induction n with
  | zero => intro _ _; exact ⟨rfl, rfl⟩
  | succ j ih =>
    intro hle hobs
    have hj := ih (by omega) (fun k hk => hobs k (by omega))
    have hstep : runPoll obs (j + 1) = pollTick (obs j) (runPoll obs j) := rfl
    rw [hstep]
    rw [pollTick, if_pos hj.2]
    cases hcase : obs j with
    | none =>
      rw [statusStep]
      simp only [timeoutStep]
      rw [if_neg (by simp only [hj.1]; omega)]
      exact ⟨by simp [hj.1], hj.2⟩
    | some sm =>
      obtain ⟨s, m⟩ := sm
      have hterm : normalizeStatus s ∉ terminalStatuses :=
        hobs j (by omega) s m hcase
      rw [statusStep]
      rw [if_neg hterm]
      simp only [timeoutStep]
      rw [if_neg (by simp only [hj.1]; omega)]
      exact ⟨by simp [hj.1], hj.2⟩

/-
Claim theorems.
-/

/-- Claim C1, counterexample: with an observation stream that never
yields a terminal status, the poller is still active (status "indexing")
after 40 ticks, so polling does not stop after exactly 40 attempts as
the claim states; it stops on the 41st tick. -/
theorem pollNeverTerminal_still_active_after_40_ticks :
    (runPoll (fun _ => none) 40).active = true
    ∧ (runPoll (fun _ => none) 40).status = "indexing"
    ∧ (runPoll (fun _ => none) 41).active = false
    ∧ (runPoll (fun _ => none) 41).status = "timeout" :=
  ⟨rfl, rfl, rfl, rfl⟩

/-- Claim C1, amended: for every run of the upload poller in which no
tick observes a terminal status, polling is still active after 40 ticks,
stops on the 41st tick (the first whose attempt counter 41 exceeds the
ceiling 40), surfaces status "timeout" with message "Indexing timed
out", and never changes state afterwards. -/
theorem pollNeverTerminal_timesOut_on_tick41 :
    ∀ obs : Nat → Option (String × String),
    (∀ k s m, obs k = some (s, m) → normalizeStatus s ∉ terminalStatuses) →
    (runPoll obs 40).active = true
    ∧ (runPoll obs 41).active = false
    ∧ (runPoll obs 41).status = "timeout"
    ∧ (runPoll obs 41).message = "Indexing timed out"
    ∧ (∀ j, runPoll obs (41 + j) = runPoll obs 41) := by
  intro obs hobs
  have h40 := runPoll_active_inv obs 40 (le_refl 40) (fun k _ => hobs k)
  have h41 : (runPoll obs 41).active = false ∧ (runPoll obs 41).status = "timeout"
      ∧ (runPoll obs 41).message = "Indexing timed out" := by
    have hstep : runPoll obs 41 = pollTick (obs 40) (runPoll obs 40) := rfl
    rw [hstep, pollTick, if_pos h40.2]
    cases hcase : obs 40 with
    | none =>
      simp only [statusStep]
      rw [timeoutStep, if_pos (by simp [h40.1])]
      exact ⟨rfl, rfl, rfl⟩
    | some sm =>
      obtain ⟨s, m⟩ := sm
      have hterm := hobs 40 s m hcase
      simp only [statusStep]
      rw [if_neg hterm, timeoutStep, if_pos (by simp [h40.1])]
      exact ⟨rfl, rfl, rfl⟩
  exact ⟨h40.2, h41.1, h41.2.1, h41.2.2, runPoll_stable obs 41 h41.1⟩

/-- Claim C1, witness: the never-terminal observation stream with no
usable status at all indeed times out on the 41st tick. -/
theorem pollNeverTerminal_timesOut_on_tick41_witness :
    (runPoll (fun _ => none) 41).status = "timeout"
    ∧ (runPoll (fun _ => none) 40).active = true := by
  have h := pollNeverTerminal_timesOut_on_tick41 (fun _ => none)
    (fun k s m hkm => Option.noConfusion hkm)
  exact ⟨h.2.2.1, h.1⟩

/-- Claim C2: the status normalization maps "done" to the terminal
"published" (one tick suffices to stop), but the line handling "indexed"
assigns it to itself, so "indexed" is surfaced raw, is not terminal, and
polling continues — contradicting the code comment announcing
normalization of both synonyms. -/
theorem indexedStatus_left_unnormalized :
    normalizeStatus "indexed" = "indexed"
    ∧ "indexed" ∉ terminalStatuses
    ∧ (runPoll (fun _ => some ("indexed", "")) 1).status = "indexed"
    ∧ (runPoll (fun _ => some ("indexed", "")) 1).active = true
    ∧ (runPoll (fun _ => some ("done", "")) 1).status = "published"
    ∧ (runPoll (fun _ => some ("done", "")) 1).active = false :=
  ⟨rfl, by decide, rfl, rfl, rfl, rfl⟩

/-- Claim C10: if the first 40 ticks observe no terminal status and the
41st tick does observe one, the status branch of that tick first surfaces
the terminal status and clears the interval, and then the timeout branch,
which runs unconditionally afterwards, overwrites the surfaced status
with "timeout" and message "Indexing timed out" before polling ends. -/
theorem terminal_on_tick41_overwritten_to_timeout :
    ∀ (obs : Nat → Option (String × String)) (s m : String),
    (∀ k, k < 40 → ∀ s2 m2, obs k = some (s2, m2) → normalizeStatus s2 ∉ terminalStatuses) →
    obs 40 = some (s, m) →
    normalizeStatus s ∈ terminalStatuses →
    (statusStep (some (s, m)) { runPoll obs 40 with tries := 41 }).status = normalizeStatus s
    ∧ (statusStep (some (s, m)) { runPoll obs 40 with tries := 41 }).active = false
    ∧ runPoll obs 41 = timeoutStep (statusStep (some (s, m)) { runPoll obs 40 with tries := 41 })
    ∧ (runPoll obs 41).status = "timeout"
    ∧ (runPoll obs 41).message = "Indexing timed out"
    ∧ (runPoll obs 41).active = false := by
  intro obs s m hpre hobs hterm
  have h40 := runPoll_active_inv obs 40 (le_refl 40) hpre
  have hmid : statusStep (some (s, m)) { runPoll obs 40 with tries := 41 }
      = { tries := 41, status := normalizeStatus s, message := m, active := false } := by
    simp only [statusStep]
    rw [if_pos hterm]
  have hstep : runPoll obs 41
      = timeoutStep (statusStep (some (s, m)) { runPoll obs 40 with tries := 41 }) := by
    have h0 : runPoll obs 41 = pollTick (obs 40) (runPoll obs 40) := rfl
    rw [h0, pollTick, if_pos h40.2, hobs, h40.1]
  have hfin : runPoll obs 41
      = { tries := 41, status := "timeout", message := "Indexing timed out", active := false } := by
    rw [hstep, hmid, timeoutStep, if_pos (show (41 : Nat) > 40 by omega)]
  exact ⟨by rw [hmid], by rw [hmid], hstep, by rw [hfin], by rw [hfin], by rw [hfin]⟩

/-- Claim C10, witness: a run whose 41st tick observes "done" surfaces
"published" in the status branch of that tick, yet ends with "timeout". -/
theorem terminal_on_tick41_overwritten_witness :
    (runPoll (fun n => if n = 40 then some ("done", "") else none) 41).status = "timeout"
    ∧ (statusStep (some ("done", ""))
        { runPoll (fun n => if n = 40 then some ("done", "") else none) 40 with tries := 41 }).status
      = "published" := by
  have h := terminal_on_tick41_overwritten_to_timeout
    (fun n => if n = 40 then some ("done", "") else none) "done" ""
    (fun k hk s2 m2 hkm => by
      have hne : k ≠ 40 := Nat.ne_of_lt hk
      simp [hne] at hkm)
    rfl
    (by decide)
  exact ⟨h.2.2.2.1, by rw [h.1]; rfl⟩

/-- An array value is the arr of its element list. -/
lemma eq_arr_of_isArr (v : JSVal) (h : isArr v = true) : v = .arr (asArr v) := by
  cases v <;> simp_all [isArr, asArr]

/-- Response used to exhibit the missing cap on the sources field: a
sources array of seven strings and a results entry whose snippet field is
a number. -/
def c3SourcesOverflow : JSVal :=
  .obj [("results", .arr [.obj [("snippet", .num 5)]]),
        ("sources", .arr [.str "s1", .str "s2", .str "s3", .str "s4",
                          .str "s5", .str "s6", .str "s7"])]

/-- Claim C3, counterexample: a response whose sources array has seven
elements yields seven output sources (the code maps resData.sources with
no slice), and a results-derived snippet can be a non-string value taken
verbatim — so the outputs are not always string sequences of at most 6
elements. -/
theorem parseMcpAnswer_sources_uncapped :
    (parseMcpAnswer c3SourcesOverflow).sources.length = 7
    ∧ (parseMcpAnswer c3SourcesOverflow).sources
        = [.str "s1", .str "s2", .str "s3", .str "s4", .str "s5", .str "s6", .str "s7"]
    ∧ (parseMcpAnswer c3SourcesOverflow).snippets = [.num 5] :=
  ⟨rfl, rfl, rfl⟩

/-- Claim C3, amended: snippets always have at most 6 elements; sources
have at most 6 elements unless the input carries a sources array, in
which case every element of that array is kept (one output per element);
and a context array of seven strings yields exactly its first six
elements in order. -/
theorem parseMcpAnswer_display_bounds :
    (∀ d : JSVal,
      (parseMcpAnswer d).snippets.length ≤ 6
      ∧ (parseMcpAnswer d).sources.length ≤
          (match jsGet d "sources" with
           | JSVal.arr xs => xs.length
           | _ => 6))
    ∧ (parseMcpAnswer (.obj [("context",
        .arr [.str "a", .str "b", .str "c", .str "d", .str "e", .str "f", .str "g"])])).snippets
      = [.str "a", .str "b", .str "c", .str "d", .str "e", .str "f"] := by
  constructor
  · intro d
    constructor
    · unfold parseMcpAnswer
      by_cases hd : truthy d = false
      · rw [if_pos hd]
        simp
      · rw [if_neg hd]
        show (mcpSnippets d).length ≤ 6
        unfold mcpSnippets
        split_ifs <;>
          simp only [List.length_map, List.length_take, List.length_nil,
            List.length_cons, List.length_singleton] <;> omega
    · unfold parseMcpAnswer
      by_cases hd : truthy d = false
      · rw [if_pos hd]
        simp
      · rw [if_neg hd]
        show (mcpSources d).length ≤ _
        unfold mcpSources
        by_cases h1 : isArr (jsGet d "sources") = true
        · rw [if_pos h1, List.length_map]
          obtain ⟨xs, hxs⟩ : ∃ xs, jsGet d "sources" = .arr xs :=
            ⟨asArr _, eq_arr_of_isArr _ h1⟩
          rw [hxs]
          simp [asArr]
        · rw [if_neg h1]
          have hb : (match jsGet d "sources" with
              | JSVal.arr xs => xs.length
              | _ => 6) = 6 := by
            cases hv : jsGet d "sources" <;> first
              | rfl
              | (rw [hv] at h1; exact absurd rfl h1)
          rw [hb]
          split_ifs <;>
            simp only [List.length_map, List.length_take, List.length_nil] <;> omega
  · rfl

/-- Claim C7: the response normalizer is total over JavaScript values:
the extracted answer text is always a string value (never null or
undefined), and the empty object, null and undefined inputs all degrade
to the empty defaults. -/
theorem parseMcpAnswer_total_defaults :
    (∀ d : JSVal, isString (parseMcpAnswer d).text = true)
    ∧ parseMcpAnswer (.obj []) = ⟨.str "", [], []⟩
    ∧ parseMcpAnswer .null = ⟨.str "", [], []⟩
    ∧ parseMcpAnswer .undefined = ⟨.str "", [], []⟩ :=
  ⟨mcpText_isString, rfl, rfl, rfl⟩

/-- Claim C8: in the search path, the extracted answer text is a string,
and it is used unchanged whenever truthy (non-empty); when it is empty
the final answer is payload.answer if truthy, else response.answer if
truthy, else the raw JSON serialization of the response truncated to at
most 400 characters, and that truncation is indeed bounded by 400. -/
theorem searchAnswer_fallback_chain :
    ∀ d : JSVal,
    isString (parseMcpAnswer (jsOr d (.obj []))).text = true
    ∧ (truthy (parseMcpAnswer (jsOr d (.obj []))).text = true →
        searchAnswer d = (parseMcpAnswer (jsOr d (.obj []))).text)
    ∧ (truthy (parseMcpAnswer (jsOr d (.obj []))).text = false →
        searchAnswer d =
          (if truthy (jsGet (jsGet d "payload") "answer") then jsGet (jsGet d "payload") "answer"
           else if truthy (jsGet (jsGet d "response") "answer") then jsGet (jsGet d "response") "answer"
           else .str (jsSlice (stringify d) 400)))
    ∧ (jsSlice (stringify d) 400).length ≤ 400 := by
  intro d
  refine ⟨mcpText_isString _, ?_, ?_, ?_⟩
  · intro ht
    simp only [searchAnswer]
    rw [if_pos ht]
  · intro ht
    simp only [searchAnswer]
    rw [if_neg (by simp [ht])]
  · show ((stringify d).data.take 400).length ≤ 400
    rw [List.length_take]
    exact min_le_left _ _

/-- Claim C8, witness: a response with a truthy answer string is passed
through unchanged, and the empty object falls all the way through to its
truncated serialization. -/
theorem searchAnswer_fallback_chain_witness :
    searchAnswer (.obj [("answer", .str "hi")]) = .str "hi"
    ∧ searchAnswer (.obj []) = .str "\x7b\x7d" := by
  constructor
  · have h := (searchAnswer_fallback_chain (.obj [("answer", .str "hi")])).2.1 rfl
    exact h.trans rfl
  · have h := (searchAnswer_fallback_chain (.obj [])).2.2.1 rfl
    exact h.trans rfl

/-- Claim C5: the router returns the delete intent exactly when the
lowercased trimmed query passes the delete test, which holds exactly when
a delete verb and an object token each occur as whole words; and
"deletebook", with no word boundary between the tokens, does not trigger
the delete intent. -/
theorem classify_delete_iff :
    (∀ q, classify q = Intent.delete ↔ isDeleteIntent (jsToLower (jsTrim q)) = true)
    ∧ (∀ s, isDeleteIntent s = true ↔
        (hasAnyWholeWord s deleteVerbs = true ∧ hasAnyWholeWord s deleteObjects = true))
    ∧ classify "deletebook" ≠ Intent.delete := by
  refine ⟨?_, ?_, by decide⟩
  · intro q
    unfold classify
    by_cases hc : jsTrim q = ""
    · have h0 : isDeleteIntent (jsToLower "") = false := by decide
      simp [hc, h0]
    · have hbeq : (jsTrim q == "") = false := by simp [hc]
      by_cases hd : isDeleteIntent (jsToLower (jsTrim q)) = true
      · simp [hbeq, hd]
      · have hd2 : isDeleteIntent (jsToLower (jsTrim q)) = false := by
          simpa using hd
        simp [hbeq, hd2]
        split <;> simp
  · intro s
    unfold isDeleteIntent
    exact iff_of_eq (Bool.and_eq_true _ _)

/-- Claim C9: a query passing the delete test is routed to the delete
branch and never to the list branch, so the list branch is reachable only
when the delete pattern does not match. -/
theorem deleteIntent_precedence :
    ∀ q, isDeleteIntent (jsToLower (jsTrim q)) = true →
      classify q = Intent.delete ∧ classify q ≠ Intent.list := by
  intro q hd
  have hc : jsTrim q ≠ "" := by
    intro h
    rw [h] at hd
    exact absurd hd (by decide)
  have hbeq : (jsTrim q == "") = false := by simp [hc]
  constructor
  · unfold classify
    simp [hbeq, hd]
  · unfold classify
    simp [hbeq, hd]

/-- Claim C9, witness: "delete all books" matches the delete pattern and
a list phrase, and is routed to the delete branch, not the list branch. -/
theorem deleteIntent_precedence_witness :
    (isDeleteIntent (jsToLower (jsTrim "delete all books")) = true
      ∧ isListIntent "delete all books" = true)
    ∧ (classify "delete all books" = Intent.delete
      ∧ classify "delete all books" ≠ Intent.list) :=
  ⟨⟨by decide, by decide⟩, deleteIntent_precedence "delete all books" (by decide)⟩

/-- Claim C6, counterexample: "delete list all books" is non-empty and
contains the substring "list all books" after trimming and lowercasing,
yet it is classified as delete, not list, because the delete test is
applied first. -/
theorem listPhrase_query_routed_to_delete :
    jsTrim "delete list all books" ≠ ""
    ∧ jsIncludes (jsToLower (jsTrim "delete list all books")) "list all books" = true
    ∧ classify "delete list all books" = Intent.delete
    ∧ classify "delete list all books" ≠ Intent.list :=
  ⟨by decide, by decide, by decide, by decide⟩

/-- Claim C6, amended: every query whose lowercased trimmed text contains
the substring "list all books" and which does not match the delete
pattern is classified as the list intent. -/
theorem listAllBooks_routes_to_list :
    ∀ q, jsIncludes (jsToLower (jsTrim q)) "list all books" = true →
      isDeleteIntent (jsToLower (jsTrim q)) = false →
      classify q = Intent.list := by
  intro q h1 h2
  have hc : jsTrim q ≠ "" := by
    intro h
    rw [h] at h1
    exact absurd h1 (by decide)
  have hbeq : (jsTrim q == "") = false := by simp [hc]
  have hlist : isListIntent (jsTrim q) = true := by
    unfold isListIntent
    rw [if_neg (by simp [hc])]
    simp only [jsTrim_idem]
    refine List.any_eq_true.mpr ⟨"list all", by decide, ?_⟩
    exact jsIncludes_trans _ _ _ (by decide) h1
  unfold classify
  simp [hbeq, h2, hlist]

/-- Claim C6, witness: "list all books" itself is routed to the list
branch. -/
theorem listAllBooks_routes_to_list_witness :
    classify "list all books" = Intent.list :=
  listAllBooks_routes_to_list "list all books" (by decide) (by decide)

/-- Book list exhibiting the combined first pass: the first book matches
the candidate only by upload_id, the second only by title. -/
def c4Books : List MBook :=
  [⟨some "x", some "a1", some "t", some "b1"⟩,
   ⟨some "t", some "a2", some "y", some "b2"⟩]

/-- Claim C4, counterexample: the code tests exact title and exact
upload_id together in one traversal, so it returns the first book (an
upload_id match) where the order stated by the claim — all exact title
matches before any exact upload_id match — would return the second. -/
theorem deleteMatch_not_title_before_id :
    findBookMatch c4Books "t" = some ⟨some "x", some "a1", some "t", some "b1"⟩
    ∧ findBookMatchClaimOrder c4Books "t" = some ⟨some "t", some "a2", some "y", some "b2"⟩
    ∧ findBookMatch c4Books "t" ≠ findBookMatchClaimOrder c4Books "t" :=
  ⟨by decide, by decide, by decide⟩

/-- Claim C4, amended: the delete flow matches in this order — a single
combined pass for exact normalized title or exact normalized upload_id,
then substring title match in either direction, then substring author
match; no match at all reports not-found and issues no delete request. -/
theorem deleteMatch_pass_order :
    ∀ (books : List MBook) (cand : String) (confirm : Bool),
    (∀ b, books.find? (exactMatch (normField (some cand))) = some b →
        findBookMatch books cand = some b)
    ∧ (books.find? (exactMatch (normField (some cand))) = none →
        ∀ b, books.find? (titleSubMatch (normField (some cand))) = some b →
          findBookMatch books cand = some b)
    ∧ (books.find? (exactMatch (normField (some cand))) = none →
        books.find? (titleSubMatch (normField (some cand))) = none →
        findBookMatch books cand = books.find? (authorSubMatch (normField (some cand))))
    ∧ (findBookMatch books cand = none ↔
        ∀ b ∈ books, exactMatch (normField (some cand)) b = false
          ∧ titleSubMatch (normField (some cand)) b = false
          ∧ authorSubMatch (normField (some cand)) b = false)
    ∧ (findBookMatch books cand = none →
        deleteFlow books cand confirm = .notFound cand
        ∧ deleteRequestOf (deleteFlow books cand confirm) = none) := by
  intro books cand confirm
  refine ⟨?_, ?_, ?_, ?_, ?_⟩
  · intro b hb
    simp only [findBookMatch]
    rw [hb]
  · intro h1 b hb
    simp only [findBookMatch]
    rw [h1, hb]
  · intro h1 h2
    simp only [findBookMatch]
    rw [h1, h2]
  · constructor
    · intro h
      simp only [findBookMatch] at h
      cases e1 : books.find? (exactMatch (normField (some cand))) with
      | some m =>
        rw [e1] at h
        exact absurd h (by simp)
      | none =>
        rw [e1] at h
        cases e2 : books.find? (titleSubMatch (normField (some cand))) with
        | some m =>
          rw [e2] at h
          exact absurd h (by simp)
        | none =>
          rw [e2] at h
          intro b hbmem
          refine ⟨?_, ?_, ?_⟩
          · simpa using List.find?_eq_none.mp e1 b hbmem
          · simpa using List.find?_eq_none.mp e2 b hbmem
          · simpa using List.find?_eq_none.mp h b hbmem
    · intro hall
      have e1 : books.find? (exactMatch (normField (some cand))) = none :=
        List.find?_eq_none.mpr (fun x hx => by rw [(hall x hx).1]; simp)
      have e2 : books.find? (titleSubMatch (normField (some cand))) = none :=
        List.find?_eq_none.mpr (fun x hx => by rw [(hall x hx).2.1]; simp)
      have e3 : books.find? (authorSubMatch (normField (some cand))) = none :=
        List.find?_eq_none.mpr (fun x hx => by rw [(hall x hx).2.2]; simp)
      simp only [findBookMatch]
      rw [e1, e2, e3]
  · intro h
    unfold deleteFlow
    rw [h]
    exact ⟨rfl, rfl⟩

/-- Claim C4, witness: an exact title match is found in the combined
first pass, and an empty book list reports not-found with no delete
request issued. -/
theorem deleteMatch_pass_order_witness :
    findBookMatch [⟨some "x", some "a", some "u", some "bid"⟩] "x"
      = some ⟨some "x", some "a", some "u", some "bid"⟩
    ∧ deleteFlow [] "q" true = DeleteOutcome.notFound "q"
    ∧ deleteRequestOf (deleteFlow [] "q" true) = none := by
  refine ⟨?_, ?_, ?_⟩
  · exact (deleteMatch_pass_order [⟨some "x", some "a", some "u", some "bid"⟩] "x" true).1
      ⟨some "x", some "a", some "u", some "bid"⟩ (by decide)
  · exact ((deleteMatch_pass_order [] "q" true).2.2.2.2 (by decide)).1
  · exact ((deleteMatch_pass_order [] "q" true).2.2.2.2 (by decide)).2
